import Mathlib

set_option maxHeartbeats 1000000

/-!
Shallow embedding of the repository-analysis pipeline of the Vibe Reverse
Engineer backend (src/backend/main.py): the remote tree fetcher, the
technology, pattern and recommendation heuristics, the complexity scorer and
the background-job orchestrator, followed by theorems settling the frozen
claims about them. Python dictionaries are modelled as insertion-ordered
association lists, Python floats as exact rationals, the Python set of
technology labels as a finite set, and the remote HTTP interactions as an
explicit outcome datatype.
-/

/-- Prefix test on character lists: does the first list occur at the start of the second? -/
def charsStartWith : List Char → List Char → Bool
  | [], _ => true
  | _ :: _, [] => false
  | p :: ps, h :: hs => (p == h) && charsStartWith ps hs

/-- Python `pat in hay` on character lists: `pat` occurs contiguously inside `hay`. -/
def charsContain : List Char → List Char → Bool
  | pat, [] => pat.isEmpty
  | pat, h :: hs => charsStartWith pat (h :: hs) || charsContain pat hs

/-- Python substring containment `pat in hay` for strings, as used by the analyzers. -/
def pyIn (pat hay : String) : Bool := charsContain pat.data hay.data

/-- Python `s.endswith(suffix)`: literal suffix test. -/
def pyEndsWith (s suffix : String) : Bool :=
  charsStartWith suffix.data.reverse s.data.reverse

/-- Value stored in the file-structure dictionary built by the fetcher:
a file leaf carries its size-descriptor string, a directory is either a nested
dictionary or the empty-list placeholder written when its listing fetch degraded. -/
inductive FSEntry : Type where
  | str (s : String)
  | emptyList
  | node (entries : List (String × FSEntry))

mutual
/-- One entry of a remote directory listing as consumed by the fetcher: a file
with its reported byte size, or a subdirectory together with the result of
fetching that subdirectory's own listing. -/
inductive RemoteItem : Type where
  | file (name : String) (size : Nat)
  | dir (name : String) (listing : FetchResult)

/-- Result of fetching a nested directory listing: a JSON list of entries, or
any degraded outcome (non-200 response, non-list JSON body, raised request
error), all of which the fetcher maps to the empty-list placeholder. -/
inductive FetchResult : Type where
  | ok (items : List RemoteItem)
  | bad
end

/-- Python dict assignment on an association list: overwrite in place when the
key is present, append otherwise. -/
def assocSet {α : Type} (l : List (String × α)) (k : String) (v : α) :
    List (String × α) :=
  if l.any (fun p => p.1 == k) then l.map (fun p => if p.1 == k then (k, v) else p)
  else l ++ [(k, v)]

/-- Recursive worker of the fetcher, mirroring the loop of
`build_file_structure`: it iterates the listing it is given, inserting file
leaves as size descriptors and directories (keyed with a trailing slash) as
nested dictionaries built from at most 10 of their children, or as the
empty-list placeholder when the nested fetch degraded. -/
def buildGo : List RemoteItem → List (String × FSEntry) → List (String × FSEntry)
  | [], acc => acc
  | RemoteItem.file n s :: rest, acc =>
      buildGo rest (assocSet acc n (FSEntry.str (toString s ++ " bytes")))
  | RemoteItem.dir n (FetchResult.ok items) :: rest, acc =>
      buildGo rest (assocSet acc (n ++ "/") (FSEntry.node (buildGo (items.take 10) [])))
  | RemoteItem.dir n FetchResult.bad :: rest, acc =>
      buildGo rest (assocSet acc (n ++ "/") FSEntry.emptyList)
termination_by l _ => sizeOf l
decreasing_by
  · simp_arith
  · have hstep : ∀ (m : Nat) (l : List RemoteItem), sizeOf (l.take m) ≤ sizeOf l := by
      intro m l
      induction l generalizing m with
      | nil => cases m <;> simp
      | cons a t ih =>
        cases m with
        | zero => simp_arith
        | succ m2 =>
          simp only [List.take]
          have := ih m2
          simp_arith
          omega
    have h := hstep 10 items
    simp_arith
    omega
  · simp_arith
  · simp_arith

/-- Entry point of the fetcher `build_file_structure`: examines at most the
first 20 entries of the listing it is given. -/
def build_file_structure (contents : List RemoteItem) : List (String × FSEntry) :=
  buildGo (contents.take 20) []

/-- Port of `count_files`: dictionary values are recursed into, every other
value (file descriptor strings and empty-list placeholders alike) counts as
one file. -/
def count_files : List (String × FSEntry) → Nat
  | [] => 0
  | (_, FSEntry.node t) :: rest => count_files t + count_files rest
  | _ :: rest => 1 + count_files rest

/-- Remote-reported repository metadata consumed by the heuristics: primary
language (with Python truthiness: a missing or empty value counts as absent),
size in KB, star count and fork count. -/
structure RepoData : Type where
  language : Option String
  size : Nat
  stargazers_count : Nat
  forks_count : Nat

/-- Labels contributed by the extension chain of `scan_files` for one file name. -/
def extLabels (name : String) : Finset String :=
  if pyEndsWith name ".tsx" || pyEndsWith name ".jsx" then {"React", "JavaScript"}
  else if pyEndsWith name ".ts" then {"TypeScript"}
  else if pyEndsWith name ".vue" then {"Vue.js"}
  else if pyEndsWith name ".py" then {"Python"}
  else if pyEndsWith name ".java" then {"Java"}
  else if pyEndsWith name ".go" then {"Go"}
  else if pyEndsWith name ".rs" then {"Rust"}
  else if pyEndsWith name ".php" then {"PHP"}
  else if pyEndsWith name ".rb" then {"Ruby"}
  else if pyEndsWith name ".swift" then {"Swift"}
  else if pyEndsWith name ".kt" then {"Kotlin"}
  else if pyEndsWith name ".dart" then {"Dart"}
  else ∅

/-- Labels contributed by the marker-filename chain of `scan_files` for one file name. -/
def markerLabels (name : String) : Finset String :=
  if name = "package.json" then {"Node.js", "npm"}
  else if name = "Cargo.toml" then {"Rust"}
  else if name = "requirements.txt" || name = "pyproject.toml" then {"Python"}
  else if name = "pom.xml" || name = "build.gradle" then {"Java"}
  else if name = "Gemfile" then {"Ruby"}
  else if name = "composer.json" then {"PHP"}
  else if name = "pubspec.yaml" then {"Dart", "Flutter"}
  else if name = "vite.config.ts" || name = "vite.config.js" then {"Vite"}
  else if name = "webpack.config.js" then {"Webpack"}
  else if name = "tailwind.config.js" then {"Tailwind CSS"}
  else if name = "next.config.js" then {"Next.js"}
  else if name = "nuxt.config.js" then {"Nuxt.js"}
  else if name = "angular.json" then {"Angular"}
  else if name = "vue.config.js" then {"Vue.js"}
  else if name = "svelte.config.js" then {"Svelte"}
  else if name = "Dockerfile" then {"Docker"}
  else if name = "docker-compose.yml" then {"Docker Compose"}
  else if name = ".github" then {"GitHub Actions"}
  else ∅

/-- Port of the inner `scan_files` walker of `detect_technologies`: dictionary
values are recursed into without examining their key, every other value has its
key run through the extension chain and the marker-filename chain. -/
def scan_files : List (String × FSEntry) → Finset String
  | [] => ∅
  | (_, FSEntry.node t) :: rest => scan_files t ∪ scan_files rest
  | (n, _) :: rest => (extLabels n ∪ markerLabels n) ∪ scan_files rest

/-- Technology contributed by the metadata language field, with Python
truthiness (absent or empty string contributes nothing). -/
def langSet (lang : Option String) : Finset String :=
  match lang with
  | some l => if l = "" then ∅ else {l}
  | none => ∅

/-- Port of `detect_technologies`: the metadata language united with all labels
found by scanning the file structure. -/
def detect_technologies (fs : List (String × FSEntry)) (rd : RepoData) : Finset String :=
  langSet rd.language ∪ scan_files fs

/-- Port of the `has_directory` closure shared by `analyze_code_patterns` and
`generate_recommendations`: a substring test on the top-level keys only. -/
def has_directory (fs : List (String × FSEntry)) (name : String) : Bool :=
  fs.any (fun p => pyIn name p.1)

/-- Port of the `search_structure` inner walker of `has_file`: substring test on
every key at every depth, recursing into dictionary values. -/
def search_structure (name : String) : List (String × FSEntry) → Bool
  | [] => false
  | (k, v) :: rest =>
      pyIn name k ||
      (match v with
       | FSEntry.node t => search_structure name t
       | _ => false) ||
      search_structure name rest

/-- Port of the `has_file` closure of the analyzers. -/
def has_file (fs : List (String × FSEntry)) (name : String) : Bool :=
  search_structure name fs

/-- Port of `analyze_code_patterns`: pattern labels appended in the fixed check
order of the source. -/
def analyze_code_patterns (fs : List (String × FSEntry)) (technologies : List String) :
    List String :=
  (if has_directory fs "components" then ["Component-based architecture"] else []) ++
  (if has_directory fs "pages" || has_directory fs "views" then ["Page-based routing"] else []) ++
  (if has_directory fs "hooks" then ["Custom hooks pattern"] else []) ++
  (if has_directory fs "services" || has_directory fs "api" then ["Service layer architecture"] else []) ++
  (if has_directory fs "utils" || has_directory fs "helpers" then ["Utility functions organization"] else []) ++
  (if has_directory fs "models" || has_directory fs "entities" then ["Data modeling patterns"] else []) ++
  (if has_directory fs "controllers" then ["MVC architecture"] else []) ++
  (if has_directory fs "middleware" then ["Middleware pattern"] else []) ++
  (if has_directory fs "store" || has_directory fs "redux" then ["State management patterns"] else []) ++
  (if has_directory fs "tests" || has_directory fs "__tests__" then ["Test-driven development"] else []) ++
  (if has_file fs "docker" then ["Containerization patterns"] else []) ++
  (if has_file fs ".env" then ["Environment configuration"] else []) ++
  (if has_file fs "README" then ["Documentation practices"] else []) ++
  (if technologies.contains "TypeScript" then ["Type-safe development"] else []) ++
  (if technologies.contains "React" then ["React functional components"] else []) ++
  (if technologies.contains "Vue.js" then ["Vue composition patterns"] else []) ++
  (if technologies.contains "Next.js" then ["Full-stack React framework"] else []) ++
  (if technologies.contains "Tailwind CSS" then ["Utility-first CSS"] else [])

/-- Port of `generate_recommendations`: suggestions appended in the fixed rule
order of the source. -/
def generate_recommendations (fs : List (String × FSEntry)) (technologies : List String)
    (rd : RepoData) : List String :=
  (if !has_directory fs "test" && !has_directory fs "__tests__" then
    ["Add unit tests to improve code reliability"] else []) ++
  (if !has_file fs "README" then ["Add a comprehensive README.md file"] else []) ++
  (if !has_directory fs ".github" then ["Set up GitHub Actions for CI/CD"] else []) ++
  (if !has_file fs ".env" && (technologies.contains "Node.js" || technologies.contains "Python") then
    ["Add environment configuration files"] else []) ++
  (if !has_file fs "Dockerfile" && technologies.length > 2 then
    ["Consider containerizing the application with Docker"] else []) ++
  (if technologies.contains "JavaScript" && !technologies.contains "TypeScript" then
    ["Consider migrating to TypeScript for better type safety"] else []) ++
  (if technologies.contains "JavaScript" || technologies.contains "TypeScript" then
    (if !has_file fs "eslint" then ["Add ESLint for code quality enforcement"] else []) ++
    (if !has_file fs "prettier" then ["Add Prettier for consistent code formatting"] else [])
   else []) ++
  (if has_file fs "package.json" then ["Regular dependency updates and security audits"] else []) ++
  (if technologies.contains "React" then ["Implement code splitting and lazy loading"] else []) ++
  (if rd.stargazers_count > 100 then ["Consider adding contributor guidelines"] else [])

/-- Fixed advanced-technology list of the scorer. -/
def advancedTech : List String := ["TypeScript", "Rust", "Go", "Docker", "Kubernetes"]

/-- Python `round(q, 1)` modelled over the rationals: round to the nearest
multiple of one tenth. -/
def pyRound1 (q : ℚ) : ℚ := ((round (q * 10) : ℤ) : ℚ) / 10

/-- Port of `calculate_complexity_score`: additive formula over file count,
technology diversity, repository size and activity, clamped to 10 and rounded
to one decimal place. -/
def calculate_complexity_score (fs : List (String × FSEntry)) (technologies : List String)
    (rd : RepoData) : ℚ :=
  pyRound1 (min 10
    (1 + min 3 ((count_files fs : ℚ) / 20)
       + min 2 ((technologies.length : ℚ) / 5)
       + (if rd.size > 1000 then 1 else 0)
       + (if rd.size > 10000 then 1 else 0)
       + (if rd.stargazers_count > 10 then (1 : ℚ) / 2 else 0)
       + (if rd.forks_count > 5 then (1 : ℚ) / 2 else 0)
       + ((technologies.filter (fun t => advancedTech.contains t)).length : ℚ) * (3 / 10)))

/-- Five-tuple returned by `analyze_github_repository`, which becomes the body
of a RepositoryAnalysis record. -/
structure AnalysisTuple : Type where
  file_structure : List (String × FSEntry)
  technologies_detected : List String
  vibe_patterns : List String
  recommendations : List String
  complexity_score : ℚ

/-- Outcome of the remote interaction of one analysis run, abstracting the two
HTTP status checks and the possibility of an unexpected raised error anywhere
in the fetch or the heuristic computation. -/
inductive FetchOutcome : Type where
  | metaFail
  | contentsFail (rd : RepoData)
  | ok (rd : RepoData) (contents : List RemoteItem)
  | raised

/-- Port of `create_minimal_analysis`, used when the repository metadata was
fetched but its contents listing was not accessible. -/
def create_minimal_analysis (rd : RepoData) : AnalysisTuple :=
  { file_structure := [("README.md", FSEntry.str "Repository content not accessible")]
    technologies_detected :=
      match rd.language with
      | some l => if l = "" then ["Unknown"] else [l]
      | none => ["Unknown"]
    vibe_patterns := ["Repository structure not analyzable"]
    recommendations := ["Repository appears to be empty or private", "Add public content for analysis"]
    complexity_score := 1 }

/-- Port of `create_fallback_analysis`, produced by the exception handler of
`analyze_github_repository` (its repository-name argument is unused there). -/
def create_fallback_analysis (_repoName : String) : AnalysisTuple :=
  { file_structure := [("error", FSEntry.str "Unable to analyze repository structure")]
    technologies_detected := ["Unknown"]
    vibe_patterns := ["Analysis failed due to API limitations"]
    recommendations := ["Repository could not be analyzed", "Check repository accessibility"]
    complexity_score := 1 }

/-- Full-analysis branch of `analyze_github_repository`: build the tree, then
run the four heuristics on it. The source turns the Python set of technologies
into a list in unspecified iteration order; no downstream consumer depends on
that order, and the model fixes the lexicographic one. -/
def analyze_github_ok (rd : RepoData) (contents : List RemoteItem) : AnalysisTuple :=
  let fs := build_file_structure contents
  let techs := (detect_technologies fs rd).sort (· ≤ ·)
  { file_structure := fs
    technologies_detected := techs
    vibe_patterns := analyze_code_patterns fs techs
    recommendations := generate_recommendations fs techs rd
    complexity_score := calculate_complexity_score fs techs rd }

/-- Port of `analyze_github_repository`: a non-200 metadata response raises a
ValueError that is caught by the function's own blanket exception handler, so
both that case and any other raised error yield the fallback tuple; a non-200
contents response yields the minimal tuple; otherwise the full pipeline runs.
This function never propagates an exception to its caller. -/
def analyze_github_repository (repoName : String) (outcome : FetchOutcome) : AnalysisTuple :=
  match outcome with
  | FetchOutcome.metaFail => create_fallback_analysis repoName
  | FetchOutcome.raised => create_fallback_analysis repoName
  | FetchOutcome.contentsFail rd => create_minimal_analysis rd
  | FetchOutcome.ok rd contents => analyze_github_ok rd contents

/-- Python `s.strip(slash)`: drop leading and trailing slash characters. -/
def pyStripSlash (s : String) : String :=
  ⟨((s.data.dropWhile (fun c => c == '/')).reverse.dropWhile (fun c => c == '/')).reverse⟩

/-- Worker for Python `s.split(slash)`: cut at every slash, keeping empty pieces. -/
def splitSlashAux : List Char → List Char → List String
  | [], cur => [⟨cur.reverse⟩]
  | '/' :: rest, cur => (⟨cur.reverse⟩ : String) :: splitSlashAux rest []
  | c :: rest, cur => splitSlashAux rest (c :: cur)

/-- Python `s.split(slash)` (note that splitting the empty string yields one
empty piece, matching Python). -/
def pySplitSlash (s : String) : List String := splitSlashAux s.data []

/-- RepositoryAnalysis record as stored in the analyses dictionary; only the
owning repository id and the analysis body matter to the claims. -/
structure AnalysisRec : Type where
  repository_id : String
  result : AnalysisTuple

/-- In-memory stores of the application: repository statuses keyed by
repository id (the only repository field the orchestrator writes) and analysis
records keyed by analysis id. -/
structure Store : Type where
  repositories : List (String × String)
  analyses : List (String × AnalysisRec)

/-- Guarded status write of the orchestrator: mutate the record's status only
when the repository id is still present. -/
def setStatus (repos : List (String × String)) (rid st : String) :
    List (String × String) :=
  if repos.any (fun p => p.1 == rid) then
    repos.map (fun p => if p.1 == rid then (rid, st) else p)
  else repos

/-- Status lookup by repository id. -/
def getStatus (repos : List (String × String)) (rid : String) : Option String :=
  (repos.find? (fun p => p.1 == rid)).map (fun p => p.2)

/-- Completion phase of `analyze_repository` (source lines 607 to 623): store
the freshly built analysis under a new analysis id, then set the status to
completed when the repository record still exists. -/
def finishRun (s : Store) (rid newId : String) (t : AnalysisTuple) : Store :=
  { repositories := setStatus s.repositories rid "completed"
    analyses := assocSet s.analyses newId ⟨rid, t⟩ }

/-- Port of the background task `analyze_repository`. The URL is represented by
its parsed netloc and path; `newId` stands for the fresh analysis UUID; the
returned flag records whether the remote API was consulted. A malformed
reference (netloc without the github.com substring, or fewer than two path
segments) raises a ValueError caught by the task's handler, which writes the
failed status and records nothing. -/
def analyze_repository (s : Store) (rid netloc path : String) (outcome : FetchOutcome)
    (newId : String) : Store × Bool :=
  let s1 : Store := { s with repositories := setStatus s.repositories rid "analyzing" }
  if pyIn "github.com" netloc then
    let parts := pySplitSlash (pyStripSlash path)
    if parts.length < 2 then
      ({ s1 with repositories := setStatus s1.repositories rid "failed" }, false)
    else
      let repoName := (parts.drop 1).headD ""
      (finishRun s1 rid newId (analyze_github_repository repoName outcome), true)
  else
    ({ s1 with repositories := setStatus s1.repositories rid "failed" }, false)

/-- Port of the delete endpoint `delete_repository`: with an unknown id it
answers 404 and changes nothing (modelled as `none`); otherwise it removes all
analyses owned by the repository and then the repository record itself. -/
def delete_repository (s : Store) (rid : String) : Option Store :=
  if s.repositories.any (fun p => p.1 == rid) then
    some { repositories := s.repositories.filter (fun p => !(p.1 == rid))
           analyses := s.analyses.filter (fun p => !(p.2.repository_id == rid)) }
  else none

/-- All values reachable from the root of a file structure, the nested
dictionary values themselves included. -/
def allValues : List (String × FSEntry) → List FSEntry
  | [] => []
  | (_, FSEntry.node t) :: rest => FSEntry.node t :: (allValues t ++ allValues rest)
  | (_, v) :: rest => v :: allValues rest

/-- Leaf test on a reachable value: anything that is not a nested dictionary. -/
def isLeafValue : FSEntry → Bool
  | FSEntry.node _ => false
  | _ => true

/-- Number of genuine file leaves (size-descriptor strings) in a structure. -/
def strLeafCount : List (String × FSEntry) → Nat
  | [] => 0
  | (_, FSEntry.node t) :: rest => strLeafCount t + strLeafCount rest
  | (_, FSEntry.str _) :: rest => 1 + strLeafCount rest
  | (_, FSEntry.emptyList) :: rest => strLeafCount rest

/-- Number of degraded-directory placeholders in a structure. -/
def degradedCount : List (String × FSEntry) → Nat
  | [] => 0
  | (_, FSEntry.node t) :: rest => degradedCount t + degradedCount rest
  | (_, FSEntry.emptyList) :: rest => 1 + degradedCount rest
  | (_, FSEntry.str _) :: rest => degradedCount rest

mutual
/-- Fan-out invariant for one dictionary value: a nested dictionary holds at
most 10 entries, recursively at every depth. -/
def entryOk : FSEntry → Bool
  | FSEntry.node t => decide (t.length ≤ 10) && listOk t
  | _ => true

/-- Fan-out invariant for all values of a dictionary. -/
def listOk : List (String × FSEntry) → Bool
  | [] => true
  | (_, v) :: rest => entryOk v && listOk rest
end

/-- Predicate of claim C3, formalised from the spec's words: a directory-level
key (one whose value is a nested dictionary or a degraded-directory
placeholder) containing the name as a substring exists anywhere in the tree,
at any nesting depth. -/
def specDirKeyAnywhere : List (String × FSEntry) → String → Bool
  | [], _ => false
  | (k, FSEntry.node t) :: rest, n =>
      pyIn n k || specDirKeyAnywhere t n || specDirKeyAnywhere rest n
  | (k, FSEntry.emptyList) :: rest, n => pyIn n k || specDirKeyAnywhere rest n
  | (_, FSEntry.str _) :: rest, n => specDirKeyAnywhere rest n

/-- Tree whose only components directory sits one level below the root. -/
def nestedComponentsTree : List (String × FSEntry) :=
  [("src/", FSEntry.node [("components/", FSEntry.node [])])]

/-- Store used to witness C7: one pending repository and one stored analysis. -/
def c7Store : Store :=
  ⟨[("r7", "pending")], [("a7", ⟨"r7", create_fallback_analysis ""⟩)]⟩

/-- Store used for the C1 counterexample: one pending repository, no analyses. -/
def c1Store : Store := ⟨[("r1", "pending")], []⟩

/-- Store used to witness the amended C1: one pending repository, no analyses. -/
def c1WStore : Store := ⟨[("r9", "pending")], []⟩

/-- Store used to witness C2: one pending repository, no analyses. -/
def c2Store : Store := ⟨[("r3", "pending")], []⟩

/-- Metadata used to witness C2: the remote still reports Python as language. -/
def c2Meta : RepoData := ⟨some "Python", 0, 0, 0⟩

/-- Store used to witness C9: one analyzing repository and one prior analysis,
both removed by the delete before the run's completion phase executes. -/
def c9Store : Store := ⟨[("r5", "analyzing")], [("a5", ⟨"r5", create_fallback_analysis ""⟩)]⟩

theorem pyRound1_bounds {q : ℚ} (h1 : 1 ≤ q) (h10 : q ≤ 10) :
    1 ≤ pyRound1 q ∧ pyRound1 q ≤ 10 := by
  have hround10 : round ((10 : ℚ)) = 10 := by norm_num
  have hround100 : round ((100 : ℚ)) = 100 := by norm_num
  have hlo : (10 : ℤ) ≤ round (q * 10) := by
    rw [← hround10]
    rw [round_eq, round_eq]
    exact Int.floor_le_floor (by linarith)
  have hhi : round (q * 10) ≤ (100 : ℤ) := by
    rw [← hround100]
    rw [round_eq, round_eq]
    exact Int.floor_le_floor (by linarith)
  constructor
  · rw [pyRound1, le_div_iff₀ (by norm_num : (0 : ℚ) < 10)]
    have h : (10 : ℚ) ≤ ((round (q * 10) : ℤ) : ℚ) := by exact_mod_cast hlo
    linarith
  · rw [pyRound1, div_le_iff₀ (by norm_num : (0 : ℚ) < 10)]
    have h : ((round (q * 10) : ℤ) : ℚ) ≤ (100 : ℚ) := by exact_mod_cast hhi
    linarith

theorem pyRound1_idem (q : ℚ) : pyRound1 (pyRound1 q) = pyRound1 q := by
  rw [pyRound1, pyRound1, div_mul_cancel₀ _ (by norm_num : (10 : ℚ) ≠ 0), round_intCast]

theorem ite_nonneg_q (c : Prop) [Decidable c] (a : ℚ) (ha : 0 ≤ a) :
    0 ≤ if c then a else 0 := by
  split
  · exact ha
  · exact le_refl 0

theorem scoreShape (q : ℚ) (h1 : 1 ≤ q) :
    1 ≤ pyRound1 (min 10 q) ∧ pyRound1 (min 10 q) ≤ 10 ∧
    pyRound1 (pyRound1 (min 10 q)) = pyRound1 (min 10 q) :=
  have hmin1 : 1 ≤ min 10 q := le_min (by norm_num) h1
  have hmin10 : min 10 q ≤ 10 := min_le_left _ _
  ⟨(pyRound1_bounds hmin1 hmin10).1, (pyRound1_bounds hmin1 hmin10).2, pyRound1_idem _⟩

/-- C5: for every file tree, technology list, and metadata, the complexity
score returned by `calculate_complexity_score` lies in the interval
`[1.0, 10.0]` and equals its value rounded to one decimal place. -/
theorem C5_complexity_score_bounded_rounded (fs : List (String × FSEntry))
    (technologies : List String) (rd : RepoData) :
    1 ≤ calculate_complexity_score fs technologies rd ∧
    calculate_complexity_score fs technologies rd ≤ 10 ∧
    pyRound1 (calculate_complexity_score fs technologies rd) =
      calculate_complexity_score fs technologies rd := by
  unfold calculate_complexity_score
  refine scoreShape _ ?_
  have t1 : (0 : ℚ) ≤ min 3 ((count_files fs : ℚ) / 20) := le_min (by norm_num) (by positivity)
  have t2 : (0 : ℚ) ≤ min 2 ((technologies.length : ℚ) / 5) := le_min (by norm_num) (by positivity)
  have t3 : (0 : ℚ) ≤ (if rd.size > 1000 then (1 : ℚ) else 0) := ite_nonneg_q _ _ (by norm_num)
  have t4 : (0 : ℚ) ≤ (if rd.size > 10000 then (1 : ℚ) else 0) := ite_nonneg_q _ _ (by norm_num)
  have t5 : (0 : ℚ) ≤ (if rd.stargazers_count > 10 then (1 : ℚ) / 2 else 0) :=
    ite_nonneg_q _ _ (by norm_num)
  have t6 : (0 : ℚ) ≤ (if rd.forks_count > 5 then (1 : ℚ) / 2 else 0) :=
    ite_nonneg_q _ _ (by norm_num)
  have t7 : (0 : ℚ) ≤
      ((technologies.filter (fun t => advancedTech.contains t)).length : ℚ) * (3 / 10) := by
    positivity
  linarith

/-- C8: `count_files` returns exactly the number of leaf (non-dictionary)
values reachable from the root, regardless of nesting depth. -/
theorem C8_count_files_counts_leaves (t : List (String × FSEntry)) :
    count_files t = ((allValues t).filter isLeafValue).length := by
  induction t using count_files.induct with
  | case1 => simp [count_files, allValues]
  | case2 k t rest iht ihrest =>
    simp [count_files, allValues, isLeafValue, List.filter_append, iht, ihrest]
  | case3 head rest hne ih =>
    obtain ⟨k, v⟩ := head
    cases v with
    | node t => exact absurd rfl (hne k t)
    | str sv =>
      simp [count_files, allValues, isLeafValue, ih]
      omega
    | emptyList =>
      simp [count_files, allValues, isLeafValue, ih]
      omega

/-- C10: the fetcher stores the empty-list placeholder for a directory whose
nested listing fetch degraded, and `count_files` counts exactly one file for
each such placeholder on top of the genuine file leaves. -/
theorem C10_degraded_subtree_counts_one (t : List (String × FSEntry)) (n : String) :
    count_files t = strLeafCount t + degradedCount t ∧
    build_file_structure [RemoteItem.dir n FetchResult.bad] = [(n ++ "/", FSEntry.emptyList)] := by
  constructor
  · induction t using count_files.induct with
    | case1 => simp [count_files, strLeafCount, degradedCount]
    | case2 k t rest iht ihrest =>
      simp [count_files, strLeafCount, degradedCount, iht, ihrest]
      omega
    | case3 head rest hne ih =>
      obtain ⟨k, v⟩ := head
      cases v with
      | node t => exact absurd rfl (hne k t)
      | str sv =>
        simp [count_files, strLeafCount, degradedCount, ih]
        omega
      | emptyList =>
        simp [count_files, strLeafCount, degradedCount, ih]
        omega
  · simp [build_file_structure, buildGo, assocSet]

theorem listOk_iff_all (l : List (String × FSEntry)) :
    listOk l = true ↔ ∀ p ∈ l, entryOk p.2 = true := by
  induction l with
  | nil => simp [listOk]
  | cons a rest ih =>
    obtain ⟨k, v⟩ := a
    simp [listOk, ih]

theorem listOk_assocSet {l : List (String × FSEntry)} {k : String} {v : FSEntry}
    (hl : listOk l = true) (hv : entryOk v = true) : listOk (assocSet l k v) = true := by
  rw [listOk_iff_all] at hl ⊢
  unfold assocSet
  split
  · intro p hp
    obtain ⟨q, hq, rfl⟩ := List.mem_map.mp hp
    by_cases hqk : (q.1 == k) = true
    · simpa [hqk] using hv
    · simp only [hqk]
      simpa using hl q hq
  · intro p hp
    rcases List.mem_append.mp hp with h | h
    · exact hl p h
    · simp only [List.mem_singleton] at h
      subst h
      exact hv

theorem length_assocSet {α : Type} (l : List (String × α)) (k : String) (v : α) :
    (assocSet l k v).length ≤ l.length + 1 := by
  unfold assocSet
  split
  · simp
  · simp

theorem buildGo_ok (l : List RemoteItem) (acc : List (String × FSEntry)) :
    listOk acc = true →
    (buildGo l acc).length ≤ acc.length + l.length ∧ listOk (buildGo l acc) = true := by
  induction l, acc using buildGo.induct with
  | case1 acc =>
    intro hacc
    simp only [buildGo]
    exact ⟨by simp, hacc⟩
  | case2 n s rest acc ih =>
    intro hacc
    simp only [buildGo]
    have h := ih (listOk_assocSet hacc (by simp [entryOk]))
    refine ⟨le_trans h.1 ?_, h.2⟩
    have := length_assocSet acc n (FSEntry.str (toString s ++ " bytes"))
    simp only [List.length_cons]
    omega
  | case3 n items rest acc ihInner ih =>
    intro hacc
    simp only [buildGo]
    have hInner := ihInner (by simp [listOk])
    have hlen : (buildGo (items.take 10) []).length ≤ 10 := by
      have h1 := hInner.1
      have h10 : (items.take 10).length ≤ 10 := by
        simp [List.length_take]
      simp only [List.length_nil, Nat.zero_add] at h1
      omega
    have hentry : entryOk (FSEntry.node (buildGo (items.take 10) [])) = true := by
      simp [entryOk, hlen, hInner.2]
    have h := ih (listOk_assocSet hacc hentry)
    refine ⟨le_trans h.1 ?_, h.2⟩
    have := length_assocSet acc (n ++ "/") (FSEntry.node (buildGo (items.take 10) []))
    simp only [List.length_cons]
    omega
  | case4 n rest acc ih =>
    intro hacc
    simp only [buildGo]
    have h := ih (listOk_assocSet hacc (by simp [entryOk]))
    refine ⟨le_trans h.1 ?_, h.2⟩
    have := length_assocSet acc (n ++ "/") FSEntry.emptyList
    simp only [List.length_cons]
    omega

/-- C6: the tree built by the fetcher has at most 20 top-level keys, and every
nested dictionary in it has at most 10 keys, whatever the remote listing. -/
theorem C6_fanout_bounds (contents : List RemoteItem) :
    (build_file_structure contents).length ≤ 20 ∧
    listOk (build_file_structure contents) = true := by
  have h := buildGo_ok (contents.take 20) [] (by simp [listOk])
  refine ⟨le_trans h.1 ?_, h.2⟩
  have h20 : (contents.take 20).length ≤ 20 := by simp [List.length_take]
  simp only [List.length_nil, Nat.zero_add]
  omega

theorem charsStartWith_iff (p h : List Char) :
    charsStartWith p h = true ↔ p <+: h := by
  induction p generalizing h with
  | nil => simp [charsStartWith]
  | cons c cs ih =>
    cases h with
    | nil => simp [charsStartWith]
    | cons d ds => simp [charsStartWith, ih, List.cons_prefix_cons]

theorem charsContain_iff (p h : List Char) :
    charsContain p h = true ↔ p <:+: h := by
  induction h with
  | nil => simp [charsContain, List.isEmpty_iff]
  | cons d ds ih => simp [charsContain, charsStartWith_iff, ih, List.infix_cons_iff]

theorem pyIn_iff (pat hay : String) : pyIn pat hay = true ↔ pat.data <:+: hay.data := by
  rw [pyIn, charsContain_iff]

/-- C3 counterexample: on a tree whose components directory is nested one
level down, the code's `has_directory` predicate is false although a
directory-level key containing the name exists in the tree, so the predicate
is not the one the claim states. -/
theorem C3_counterexample :
    ¬ (has_directory nestedComponentsTree "components" = true ↔
       specDirKeyAnywhere nestedComponentsTree "components" = true) := by
  have h1 : has_directory nestedComponentsTree "components" = false := by decide
  have h2 : specDirKeyAnywhere nestedComponentsTree "components" = true := by
    simp only [nestedComponentsTree, specDirKeyAnywhere]
    decide
  intro hiff
  rw [hiff.mpr h2] at h1
  exact absurd h1 (by simp)

/-- C3 as amended: each directory-name predicate of the Pattern Analyzer and
the Recommendation Generator holds exactly when some top-level key of the tree
(whether it names a file or a directory) contains the name as a substring;
keys at deeper nesting levels are never consulted. -/
theorem C3_amended_has_directory_top_level (fs : List (String × FSEntry)) (name : String) :
    has_directory fs name = true ↔ ∃ p ∈ fs, name.data <:+: p.1.data := by
  simp [has_directory, List.any_eq_true, pyIn_iff]

/-- C4: evaluation of the detector at the failing input. A directory entry
literally named dot-github is keyed with a trailing slash by the fetcher and
its dictionary (or placeholder) value is walked without ever checking the
directory's own name, so the GitHub Actions label is not produced — it would
be produced only for a plain file entry carrying that exact name. -/
theorem C4_github_dir_not_detected :
    "GitHub Actions" ∉ detect_technologies
        (build_file_structure [RemoteItem.dir ".github" (FetchResult.ok [])]) ⟨none, 0, 0, 0⟩ ∧
    "GitHub Actions" ∉ detect_technologies
        (build_file_structure [RemoteItem.dir ".github" FetchResult.bad]) ⟨none, 0, 0, 0⟩ ∧
    "GitHub Actions" ∈ detect_technologies [(".github", FSEntry.str "0 bytes")] ⟨none, 0, 0, 0⟩ := by
  have hb1 : build_file_structure [RemoteItem.dir ".github" (FetchResult.ok [])]
      = [(".github/", FSEntry.node [])] := by
    simp [build_file_structure, buildGo, assocSet]
  have hb2 : build_file_structure [RemoteItem.dir ".github" FetchResult.bad]
      = [(".github/", FSEntry.emptyList)] := by
    simp [build_file_structure, buildGo, assocSet]
  refine ⟨?_, ?_, ?_⟩
  · rw [hb1]
    simp only [detect_technologies, scan_files, langSet]
    decide
  · rw [hb2]
    simp only [detect_technologies, scan_files, langSet]
    decide
  · simp only [detect_technologies, scan_files, langSet]
    decide

theorem any_key_map (l : List (String × String)) (k st k' : String) :
    ((l.map (fun p => if p.1 == k then (k, st) else p)).any (fun p => p.1 == k'))
      = l.any (fun p => p.1 == k') := by
  induction l with
  | nil => simp
  | cons a rest ih =>
    obtain ⟨a1, a2⟩ := a
    simp only [List.map_cons, List.any_cons, ih]
    by_cases ha : a1 = k
    · subst ha
      simp
    · have hbeq : (a1 == k) = false := by simp [ha]
      simp [hbeq]

theorem find?_after_map (l : List (String × String)) (k st : String)
    (h : l.any (fun p => p.1 == k) = true) :
    (l.map (fun p => if p.1 == k then (k, st) else p)).find? (fun p => p.1 == k)
      = some (k, st) := by
  induction l with
  | nil => simp at h
  | cons a rest ih =>
    obtain ⟨a1, a2⟩ := a
    by_cases ha : a1 = k
    · subst ha
      simp [List.find?]
    · have hbeq : (a1 == k) = false := by simp [ha]
      have h' : rest.any (fun p => p.1 == k) = true := by
        simpa [hbeq] using h
      simp only [List.map_cons, hbeq, Bool.false_eq_true, if_false]
      rw [List.find?_cons_of_neg _ (by simpa using hbeq)]
      exact ih h'

theorem getStatus_setStatus_self (l : List (String × String)) (k st : String)
    (h : l.any (fun p => p.1 == k) = true) :
    getStatus (setStatus l k st) k = some st := by
  rw [setStatus, if_pos h, getStatus, find?_after_map l k st h]
  rfl

theorem any_key_setStatus (l : List (String × String)) (k st k' : String) :
    (setStatus l k st).any (fun p => p.1 == k') = l.any (fun p => p.1 == k') := by
  rw [setStatus]
  split
  · exact any_key_map l k st k'
  · rfl

theorem mem_assocSet_self {α : Type} (l : List (String × α)) (k : String) (v : α) :
    (k, v) ∈ assocSet l k v := by
  rw [assocSet]
  split
  · next h =>
    obtain ⟨p, hp, hpk⟩ := List.any_eq_true.mp h
    refine List.mem_map.mpr ⟨p, hp, ?_⟩
    simp [hpk]
  · simp

/-- C7: a source reference whose netloc does not name the supported host, or
whose path has fewer than two segments, drives the job straight to failed:
the remote API is never consulted and no analysis record is created. -/
theorem C7_malformed_reference_fails_fast (s : Store) (rid netloc path newId : String)
    (outcome : FetchOutcome)
    (hmal : pyIn "github.com" netloc = false ∨
      (pySplitSlash (pyStripSlash path)).length < 2)
    (hrid : s.repositories.any (fun p => p.1 == rid) = true) :
    getStatus (analyze_repository s rid netloc path outcome newId).1.repositories rid
      = some "failed" ∧
    (analyze_repository s rid netloc path outcome newId).1.analyses = s.analyses ∧
    (analyze_repository s rid netloc path outcome newId).2 = false := by
  have hrid1 : (setStatus s.repositories rid "analyzing").any (fun p => p.1 == rid) = true := by
    rw [any_key_setStatus]
    exact hrid
  by_cases hnet : pyIn "github.com" netloc = true
  · rcases hmal with hf | hlen
    · rw [hnet] at hf
      exact absurd hf (by simp)
    · simp only [analyze_repository, hnet, if_true, if_pos hlen]
      exact ⟨getStatus_setStatus_self _ _ _ hrid1, trivial, trivial⟩
  · have hf : pyIn "github.com" netloc = false := by
      revert hnet
      cases pyIn "github.com" netloc <;> simp
    simp only [analyze_repository, hf, Bool.false_eq_true, if_false]
    exact ⟨getStatus_setStatus_self _ _ _ hrid1, trivial, trivial⟩

/-- C7 witness: a reference on an unsupported host goes straight to failed at a
concrete store, leaving the analyses untouched and the remote unconsulted. -/
theorem C7_malformed_reference_fails_fast_witness :
    getStatus (analyze_repository c7Store "r7" "gitlab.com" "/owner/repo" FetchOutcome.raised "a8").1.repositories "r7"
      = some "failed" ∧
    (analyze_repository c7Store "r7" "gitlab.com" "/owner/repo" FetchOutcome.raised "a8").1.analyses = c7Store.analyses ∧
    (analyze_repository c7Store "r7" "gitlab.com" "/owner/repo" FetchOutcome.raised "a8").2 = false :=
  C7_malformed_reference_fails_fast c7Store "r7" "gitlab.com" "/owner/repo" "a8"
    FetchOutcome.raised (Or.inl (by decide)) (by decide)

/-- C1 counterexample: an unexpected failure raised during the remote fetch or
the heuristic computation is caught inside the analysis routine, so with a
well-formed reference the job ends completed and an analysis record is stored,
not failed with none. -/
theorem C1_counterexample_fault_still_completes :
    getStatus (analyze_repository c1Store "r1" "github.com" "/alice/proj" FetchOutcome.raised "a1").1.repositories "r1"
      = some "completed" ∧
    (analyze_repository c1Store "r1" "github.com" "/alice/proj" FetchOutcome.raised "a1").1.analyses.length = 1 := by
  decide

/-- C1 as amended: an unexpected failure raised during the remote fetch or the
heuristic computation is swallowed by the analysis routine's own handler, so
the run records a fallback AnalysisResult (technologies Unknown, score 1.0)
and sets the job to completed; failed-with-no-result is reserved for failures
outside that routine, such as reference parsing. -/
theorem C1_amended_fault_completes_with_fallback (s : Store)
    (rid netloc path newId : String)
    (hnet : pyIn "github.com" netloc = true)
    (hparts : ¬ (pySplitSlash (pyStripSlash path)).length < 2)
    (hrid : s.repositories.any (fun p => p.1 == rid) = true) :
    getStatus (analyze_repository s rid netloc path FetchOutcome.raised newId).1.repositories rid
      = some "completed" ∧
    (analyze_repository s rid netloc path FetchOutcome.raised newId).1.analyses
      = assocSet s.analyses newId
          ⟨rid, create_fallback_analysis (((pySplitSlash (pyStripSlash path)).drop 1).headD "")⟩ ∧
    (create_fallback_analysis (((pySplitSlash (pyStripSlash path)).drop 1).headD "")).technologies_detected
      = ["Unknown"] ∧
    (create_fallback_analysis (((pySplitSlash (pyStripSlash path)).drop 1).headD "")).complexity_score
      = 1 := by
  have hrid1 : (setStatus s.repositories rid "analyzing").any (fun p => p.1 == rid) = true := by
    rw [any_key_setStatus]
    exact hrid
  simp only [analyze_repository, hnet, if_true, if_neg hparts, finishRun,
    analyze_github_repository]
  exact ⟨getStatus_setStatus_self _ _ _ hrid1, trivial, rfl, rfl⟩

/-- C1 witness: the amended statement evaluated at a concrete store, reference
and raised-fault outcome. -/
theorem C1_amended_fault_completes_with_fallback_witness :
    getStatus (analyze_repository c1WStore "r9" "github.com" "/carol/tool" FetchOutcome.raised "b1").1.repositories "r9"
      = some "completed" ∧
    (analyze_repository c1WStore "r9" "github.com" "/carol/tool" FetchOutcome.raised "b1").1.analyses
      = assocSet c1WStore.analyses "b1"
          ⟨"r9", create_fallback_analysis (((pySplitSlash (pyStripSlash "/carol/tool")).drop 1).headD "")⟩ ∧
    (create_fallback_analysis (((pySplitSlash (pyStripSlash "/carol/tool")).drop 1).headD "")).technologies_detected
      = ["Unknown"] ∧
    (create_fallback_analysis (((pySplitSlash (pyStripSlash "/carol/tool")).drop 1).headD "")).complexity_score
      = 1 :=
  C1_amended_fault_completes_with_fallback c1WStore "r9" "github.com" "/carol/tool" "b1"
    (by decide) (by decide) (by decide)

/-- C2: when the remote metadata fetch reports not-found or inaccessible, the
raised ValueError is caught by the analysis routine's handler and the run
completes with the fallback record (technologies Unknown, score 1.0); when
the metadata arrives but the contents listing is inaccessible, the run
completes with the minimal record, whose technology list is Unknown or the
metadata language and whose score is 1.0. -/
theorem C2_unavailable_repository_completes (s : Store)
    (rid netloc path newId : String) (rd : RepoData)
    (hnet : pyIn "github.com" netloc = true)
    (hparts : ¬ (pySplitSlash (pyStripSlash path)).length < 2)
    (hrid : s.repositories.any (fun p => p.1 == rid) = true) :
    (getStatus (analyze_repository s rid netloc path FetchOutcome.metaFail newId).1.repositories rid
        = some "completed" ∧
      (analyze_repository s rid netloc path FetchOutcome.metaFail newId).1.analyses
        = assocSet s.analyses newId
            ⟨rid, create_fallback_analysis (((pySplitSlash (pyStripSlash path)).drop 1).headD "")⟩ ∧
      (create_fallback_analysis (((pySplitSlash (pyStripSlash path)).drop 1).headD "")).technologies_detected
        = ["Unknown"] ∧
      (create_fallback_analysis (((pySplitSlash (pyStripSlash path)).drop 1).headD "")).complexity_score
        = 1) ∧
    (getStatus (analyze_repository s rid netloc path (FetchOutcome.contentsFail rd) newId).1.repositories rid
        = some "completed" ∧
      (analyze_repository s rid netloc path (FetchOutcome.contentsFail rd) newId).1.analyses
        = assocSet s.analyses newId ⟨rid, create_minimal_analysis rd⟩ ∧
      ((create_minimal_analysis rd).technologies_detected = ["Unknown"] ∨
        (create_minimal_analysis rd).technologies_detected = [rd.language.getD ""]) ∧
      (create_minimal_analysis rd).complexity_score = 1) := by
  have hrid1 : (setStatus s.repositories rid "analyzing").any (fun p => p.1 == rid) = true := by
    rw [any_key_setStatus]
    exact hrid
  constructor
  · simp only [analyze_repository, hnet, if_true, if_neg hparts, finishRun,
      analyze_github_repository]
    exact ⟨getStatus_setStatus_self _ _ _ hrid1, trivial, rfl, rfl⟩
  · simp only [analyze_repository, hnet, if_true, if_neg hparts, finishRun,
      analyze_github_repository]
    refine ⟨getStatus_setStatus_self _ _ _ hrid1, trivial, ?_, rfl⟩
    cases hl : rd.language with
    | none => left; simp [create_minimal_analysis, hl]
    | some l =>
      by_cases hemp : l = ""
      · left; simp [create_minimal_analysis, hl, hemp]
      · right; simp [create_minimal_analysis, hl, hemp]

/-- C2 witness: the theorem evaluated at a concrete store, reference and
metadata whose language is Python. -/
theorem C2_unavailable_repository_completes_witness :
    (getStatus (analyze_repository c2Store "r3" "github.com" "/dana/lib" FetchOutcome.metaFail "a3").1.repositories "r3"
        = some "completed" ∧
      (analyze_repository c2Store "r3" "github.com" "/dana/lib" FetchOutcome.metaFail "a3").1.analyses
        = assocSet c2Store.analyses "a3"
            ⟨"r3", create_fallback_analysis (((pySplitSlash (pyStripSlash "/dana/lib")).drop 1).headD "")⟩ ∧
      (create_fallback_analysis (((pySplitSlash (pyStripSlash "/dana/lib")).drop 1).headD "")).technologies_detected
        = ["Unknown"] ∧
      (create_fallback_analysis (((pySplitSlash (pyStripSlash "/dana/lib")).drop 1).headD "")).complexity_score
        = 1) ∧
    (getStatus (analyze_repository c2Store "r3" "github.com" "/dana/lib" (FetchOutcome.contentsFail c2Meta) "a3").1.repositories "r3"
        = some "completed" ∧
      (analyze_repository c2Store "r3" "github.com" "/dana/lib" (FetchOutcome.contentsFail c2Meta) "a3").1.analyses
        = assocSet c2Store.analyses "a3" ⟨"r3", create_minimal_analysis c2Meta⟩ ∧
      ((create_minimal_analysis c2Meta).technologies_detected = ["Unknown"] ∨
        (create_minimal_analysis c2Meta).technologies_detected = [c2Meta.language.getD ""]) ∧
      (create_minimal_analysis c2Meta).complexity_score = 1) :=
  C2_unavailable_repository_completes c2Store "r3" "github.com" "/dana/lib" "a3" c2Meta
    (by decide) (by decide) (by decide)

/-- C9: after a repository record is deleted mid-run (which cascades over the
analyses existing at that moment), the completion phase of the run still
inserts a new analysis keyed to the deleted repository's id, while the
completed-status write is skipped; the store ends with an analysis that has no
owning repository record. -/
theorem C9_run_outlives_delete (s s' : Store) (rid newId : String) (t : AnalysisTuple)
    (hdel : delete_repository s rid = some s') :
    (newId, AnalysisRec.mk rid t) ∈ (finishRun s' rid newId t).analyses ∧
    (finishRun s' rid newId t).repositories = s'.repositories ∧
    (finishRun s' rid newId t).repositories.all (fun p => !(p.1 == rid)) = true ∧
    s'.analyses.all (fun p => !(p.2.repository_id == rid)) = true := by
  rw [delete_repository] at hdel
  split at hdel
  case isFalse => exact absurd hdel (by simp)
  case isTrue hmem =>
    obtain rfl : _ = s' := Option.some.inj hdel
    have hnone : ((s.repositories.filter (fun p => !(p.1 == rid))).any
        (fun p => p.1 == rid)) = false := by
      rw [List.any_eq_false]
      intro p hp
      have := (List.mem_filter.mp hp).2
      simpa using this
    have hrepos : (finishRun
        ⟨s.repositories.filter (fun p => !(p.1 == rid)),
         s.analyses.filter (fun p => !(p.2.repository_id == rid))⟩ rid newId t).repositories
        = s.repositories.filter (fun p => !(p.1 == rid)) := by
      simp only [finishRun, setStatus, hnone, Bool.false_eq_true, if_false]
    refine ⟨?_, hrepos, ?_, ?_⟩
    · exact mem_assocSet_self _ _ _
    · rw [hrepos]
      rw [List.all_eq_true]
      intro p hp
      have := (List.mem_filter.mp hp).2
      exact this
    · rw [List.all_eq_true]
      intro p hp
      have := (List.mem_filter.mp hp).2
      exact this

/-- C9 witness: the theorem evaluated at concrete stores on both sides of the
delete. -/
theorem C9_run_outlives_delete_witness :
    ("a6", AnalysisRec.mk "r5" (create_fallback_analysis "gone")) ∈
      (finishRun (Store.mk [] []) "r5" "a6" (create_fallback_analysis "gone")).analyses ∧
    (finishRun (Store.mk [] []) "r5" "a6" (create_fallback_analysis "gone")).repositories
      = (Store.mk [] []).repositories ∧
    (finishRun (Store.mk [] []) "r5" "a6" (create_fallback_analysis "gone")).repositories.all
      (fun p => !(p.1 == "r5")) = true ∧
    (Store.mk [] []).analyses.all (fun p => !(p.2.repository_id == "r5")) = true :=
  C9_run_outlives_delete c9Store (Store.mk [] []) "r5" "a6" (create_fallback_analysis "gone")
    (by rfl)
